import Mathlib

/-!
Shallow embedding of the Baseball-Statistical-AI pipeline
(`data_loader.py`, `optimizer.py`) and verification of its specification.

Modelling conventions:
- pandas floats become `ℚ` (the claims under scrutiny involve only exact
  decimal constants and ratios of counts);
- a CSV file on disk becomes a Lean list plus an existence flag in `Env`;
- the external `pybaseball.playerid_lookup` provider becomes an oracle
  function; an exception it raises becomes `Except.error ()`;
- Python `None` becomes `Option.none`;
- player names are `List Char`, with Python's `str.strip` / `str.split(' ')`
  re-implemented character by character.
-/

namespace BaseballAI

/-! ## Data model -/

/-- One row of the cached Statcast dataset (`statcast_2024_sample.csv`).
`events` is nullable in the real data, hence `Option String`. -/
structure Row where
  pitcher : Nat
  batter : Nat
  events : Option String
  release_speed : ℚ
  release_spin_rate : ℚ
  p_throws : Char
  stand : Char
deriving DecidableEq

/-- A row of `batter_stats.csv`: the derived aggregate statistics. -/
structure Stats where
  avg : ℚ
  slg : ℚ
  iso : ℚ
deriving DecidableEq

/-- The dict returned by `get_pitcher_profile`. -/
structure PitcherProfile where
  release_speed : ℚ
  release_spin_rate : ℚ
  p_throws : ℚ
deriving DecidableEq

/-- The dict returned by `get_batter_profile`. -/
structure BatterProfile where
  stand : ℚ
  avg : ℚ
  slg : ℚ
  iso : ℚ
deriving DecidableEq

/-- The external world an invocation sees: which files exist, their contents,
and the external name-resolution provider (`playerid_lookup`), which returns
a list of candidate MLBAM ids or raises (`Except.error`). -/
structure Env where
  cacheExists : Bool
  batterStatsExists : Bool
  modelExists : Bool
  scalerExists : Bool
  cache : List Row
  batterStats : List (Nat × Stats)
  lookup : List Char → List Char → Except Unit (List Nat)

/-! ## Name handling (`get_player_id`, data_loader.py lines 77-95) -/

/-- Characters removed by the Python strip method. -/
def isWS (c : Char) : Bool :=
  c = ' ' || c = '\t' || c = '\n' || c = '\r'

/-- Embeds the Python strip call: drop leading and trailing whitespace. -/
def pyStrip (s : List Char) : List Char :=
  ((s.dropWhile isWS).reverse.dropWhile isWS).reverse

/-- Embeds the Python split-on-space call: split on every single space
character, keeping empty parts; the empty string splits to one empty part,
matching Python. -/
def pySplitSpace : List Char → List (List Char)
  | [] => [[]]
  | c :: rest =>
    match pySplitSpace rest with
    | [] => []
    | part :: parts =>
      if c = ' ' then [] :: part :: parts
      else (c :: part) :: parts

/-- Embeds the Python space-join of the parts. -/
def joinSpace (parts : List (List Char)) : List Char :=
  List.intercalate [' '] parts

/-- Embeds `get_player_id`: strip, split on spaces, require at least two
parts, then consult the provider with (last-name remainder, first token);
any raised exception and any empty result collapse to `none`. -/
def get_player_id (lookup : List Char → List Char → Except Unit (List Nat))
    (name : List Char) : Option Nat :=
  match pySplitSpace (pyStrip name) with
  | p1 :: p2 :: ps =>
    match lookup (joinSpace (p2 :: ps)) p1 with
    | Except.error _ => none
    | Except.ok [] => none
    | Except.ok (pid :: _) => some pid
  | _ => none

/-! ## Batter aggregates (`calculate_batter_stats`, data_loader.py 128-158) -/

/-- The event strings counted as hits. -/
def hit_events : List String := ["single", "double", "triple", "home_run"]

/-- The event strings counted as at-bats: hits plus qualifying outs. -/
def ab_events : List String :=
  hit_events ++
    ["field_out", "strikeout", "force_out", "grounded_into_double_play",
     "fielders_choice"]

/-- Count of events in the group lying in `es` (pandas isin-sum); a null
event matches nothing. -/
def countIn (group : List (Option String)) (es : List String) : Nat :=
  (group.filter fun x =>
    match x with
    | some e => es.contains e
    | none => false).length

/-- Count of events in the group equal to `e` (pandas equality-sum). -/
def countEq (group : List (Option String)) (e : String) : Nat :=
  (group.filter fun x => x == some e).length

/-- The per-group helper `get_stats` inside `calculate_batter_stats`. -/
def get_stats (group : List (Option String)) : Stats :=
  let hits := countIn group hit_events
  let ab := countIn group ab_events
  let singles := countEq group ("single")
  let doubles := countEq group ("double")
  let triples := countEq group ("triple")
  let hrs := countEq group ("home_run")
  let tb := singles + 2 * doubles + 3 * triples + 4 * hrs
  if ab = 0 then ⟨0, 0, 0⟩
  else
    let avg : ℚ := (hits : ℚ) / (ab : ℚ)
    let slg : ℚ := (tb : ℚ) / (ab : ℚ)
    ⟨avg, slg, slg - avg⟩

/-- The event column of the group of one batter under the groupby on batter id. -/
def groupOf (df : List Row) (b : Nat) : List (Option String) :=
  (df.filter fun r => r.batter == b).map Row.events

/-- Embeds `calculate_batter_stats`: groupby on batter id then `get_stats`,
modelled as the function sending each batter id to the stats of its group. -/
def calculate_batter_stats (df : List Row) (b : Nat) : Stats :=
  get_stats (groupOf df b)

/-! ## Pitcher profile (`get_pitcher_profile`, data_loader.py 97-126) -/

/-- pandas `Series.mean()` on an all-numeric column. -/
def mean (l : List ℚ) : ℚ := l.sum / (l.length : ℚ)

/-- The league-average fallback: full-dataset mean velocity and spin rate,
right-handedness assumed (`p_throws = 0`). -/
def league_average (df : List Row) : PitcherProfile :=
  ⟨mean (df.map Row.release_speed), mean (df.map Row.release_spin_rate), 0⟩

/-- Embeds `get_pitcher_profile`. Returns `none` when the cache file is
missing; otherwise resolves the name (the Python truthiness test on the id
is falsy for both
`None` and id `0`), uses per-pitcher means when the pitcher has cached rows,
and the league-average fallback otherwise. -/
def get_pitcher_profile (env : Env) (name : List Char) : Option PitcherProfile :=
  if !env.cacheExists then none
  else
    let df := env.cache
    match get_player_id env.lookup name with
    | some pid =>
      if pid ≠ 0 then
        match df.filter (fun r => r.pitcher == pid) with
        | [] => some (league_average df)
        | r0 :: rs =>
          some ⟨mean ((r0 :: rs).map Row.release_speed),
                mean ((r0 :: rs).map Row.release_spin_rate),
                if r0.p_throws = 'R' then 0 else 1⟩
      else some (league_average df)
    | none => some (league_average df)

/-! ## Batter profile (`get_batter_profile`, data_loader.py 160-188) -/

/-- The static default batter profile used on every lookup failure. -/
def defaultBatter : BatterProfile := ⟨0, 240/1000, 400/1000, 160/1000⟩

/-- Embeds `get_batter_profile`. Returns `none` when either the cache file or
`batter_stats.csv` is missing; otherwise resolves the name, reads handedness
from the first cached row and the aggregates from `batter_stats.csv`, and
falls back to the static default on any failure. -/
def get_batter_profile (env : Env) (name : List Char) : Option BatterProfile :=
  if !env.cacheExists || !env.batterStatsExists then none
  else
    let df := env.cache
    let stats_df := env.batterStats
    match get_player_id env.lookup name with
    | some pid =>
      if pid ≠ 0 then
        let player_data := df.filter (fun r => r.batter == pid)
        let stand : ℚ :=
          match player_data with
          | [] => 0
          | r0 :: _ => if r0.stand = 'R' then 0 else 1
        match stats_df.filter (fun p => p.1 == pid) with
        | s :: _ => some ⟨stand, s.2.avg, s.2.slg, s.2.iso⟩
        | [] => some defaultBatter
      else some defaultBatter
    | none => some defaultBatter

/-! ## Lineup optimizer (`optimize_lineup`, optimizer.py 10-63) -/

/-- One entry of the optimizer result list. -/
structure Pred where
  batter : List Char
  prob : ℚ
deriving DecidableEq

/-- Stable descending insertion: `x` is placed before the first element whose
probability does not exceed that of `x`, mirroring the stable Python
`list.sort(key=..., reverse=True)`. -/
def insertDesc (x : Pred) : List Pred → List Pred
  | [] => [x]
  | y :: ys => if y.prob ≤ x.prob then x :: y :: ys else y :: insertDesc x ys

/-- Stable sort, descending by `prob`: `results.sort(key=..., reverse=True)`. -/
def sortDesc : List Pred → List Pred
  | [] => []
  | x :: xs => insertDesc x (sortDesc xs)

/-- The feature row built for one batter, in the fixed training order
release_speed, release_spin_rate, p_throws, stand, avg, slg, iso. -/
def featureRow (ps : PitcherProfile) (bs : BatterProfile) : List ℚ :=
  [ps.release_speed, ps.release_spin_rate, ps.p_throws,
   bs.stand, bs.avg, bs.slg, bs.iso]

/-- Embeds `optimize_lineup`. The persisted scaler and
model are external artifacts, passed as the functions `scalerTransform` and
`modelPredict` (`modelPredict` returns the probability column of
`model.predict`). Returns the error string (Python returns a `str`) or the
sorted prediction list. -/
def optimize_lineup (env : Env)
    (scalerTransform : List (List ℚ) → List (List ℚ))
    (modelPredict : List (List ℚ) → List ℚ)
    (pitcher_name : List Char) (batter_names : List (List Char)) :
    Except String (List Pred) :=
  if !env.modelExists || !env.scalerExists then
    Except.error ("Model or Scaler not found. Please train the model first.")
  else
    match get_pitcher_profile env pitcher_name with
    | none =>
      Except.error ("Pitcher " ++ String.mk pitcher_name ++
        " not found (or no data available).")
    | some pitcher_stats =>
      let rows := batter_names.filterMap fun b =>
        (get_batter_profile env b).map fun bs => (b, featureRow pitcher_stats bs)
      let lineup_data := rows.map Prod.snd
      let valid_batters := rows.map Prod.fst
      if lineup_data.isEmpty then Except.error ("No valid batters found.")
      else
        let predictions := modelPredict (scalerTransform lineup_data)
        let results := (valid_batters.zip predictions).map fun bp =>
          Pred.mk bp.1 bp.2
        Except.ok (sortDesc results)




lemma mem_insertDesc {z x : Pred} {l : List Pred} (h : z ∈ insertDesc x l) :
    z = x ∨ z ∈ l := by
  induction l with
  | nil => simpa [insertDesc] using h
  | cons y ys ih =>
    rw [insertDesc] at h
    by_cases hc : y.prob ≤ x.prob
    · rw [if_pos hc] at h
      exact List.mem_cons.mp h
    · rw [if_neg hc] at h
      rcases List.mem_cons.mp h with rfl | h2
      · exact Or.inr (List.mem_cons_self _ _)
      · rcases ih h2 with h3 | h3
        · exact Or.inl h3
        · exact Or.inr (List.mem_cons_of_mem _ h3)

lemma pairwise_insertDesc {x : Pred} {l : List Pred}
    (h : l.Pairwise fun a b => b.prob ≤ a.prob) :
    (insertDesc x l).Pairwise fun a b => b.prob ≤ a.prob := by
  induction l with
  | nil => simp [insertDesc]
  | cons y ys ih =>
    rw [insertDesc]
    rcases List.pairwise_cons.mp h with ⟨hy, hys⟩
    by_cases hc : y.prob ≤ x.prob
    · rw [if_pos hc]
      refine List.pairwise_cons.mpr ⟨?_, h⟩
      intro z hz
      rcases List.mem_cons.mp hz with rfl | hz
      · exact hc
      · exact le_trans (hy z hz) hc
    · rw [if_neg hc]
      refine List.pairwise_cons.mpr ⟨?_, ih hys⟩
      intro z hz
      rcases mem_insertDesc hz with rfl | hz
      · exact le_of_lt (lt_of_not_le hc)
      · exact hy z hz

lemma sortDesc_pairwise (l : List Pred) :
    (sortDesc l).Pairwise fun a b => b.prob ≤ a.prob := by
  induction l with
  | nil => simp [sortDesc]
  | cons x xs ih => exact pairwise_insertDesc ih

lemma filter_insertDesc (x : Pred) (l : List Pred) (p : ℚ) :
    (insertDesc x l).filter (fun y => decide (y.prob = p))
      = (x :: l).filter (fun y => decide (y.prob = p)) := by
  induction l with
  | nil => simp [insertDesc]
  | cons y ys ih =>
    rw [insertDesc]
    by_cases hc : y.prob ≤ x.prob
    · rw [if_pos hc]
    · rw [if_neg hc]
      by_cases hy : y.prob = p <;> by_cases hx : x.prob = p
      · exact absurd (hy ▸ hx ▸ le_refl p) hc
      all_goals simp [List.filter_cons, hy, hx, ih]

lemma sortDesc_filter (l : List Pred) (p : ℚ) :
    (sortDesc l).filter (fun y => decide (y.prob = p))
      = l.filter (fun y => decide (y.prob = p)) := by
  induction l with
  | nil => rfl
  | cons x xs ih =>
    rw [sortDesc, filter_insertDesc]
    simp only [List.filter_cons]
    rw [ih]

lemma mem_sortDesc {z : Pred} {l : List Pred} (h : z ∈ sortDesc l) : z ∈ l := by
  induction l with
  | nil => exact h
  | cons x xs ih =>
    rw [sortDesc] at h
    rcases mem_insertDesc h with rfl | h2
    · exact List.mem_cons_self _ _
    · exact List.mem_cons_of_mem _ (ih h2)



lemma hits_le_tb (g : List (Option String)) :
    countIn g hit_events ≤
      countEq g ("single") + 2 * countEq g ("double") + 3 * countEq g ("triple")
        + 4 * countEq g ("home_run") := by
  induction g with
  | nil => simp [countIn, countEq]
  | cons x g ih =>
    rcases x with _ | e
    · simpa [countIn, countEq, List.filter_cons] using ih
    · by_cases h1 : e = "single"
      · simp [countIn, countEq, List.filter_cons, h1, hit_events] at ih ⊢
        omega
      · by_cases h2 : e = "double"
        · simp [countIn, countEq, List.filter_cons, h2, hit_events] at ih ⊢
          omega
        · by_cases h3 : e = "triple"
          · simp [countIn, countEq, List.filter_cons, h3, hit_events] at ih ⊢
            omega
          · by_cases h4 : e = "home_run"
            · simp [countIn, countEq, List.filter_cons, h4, hit_events] at ih ⊢
              omega
            · simp [countIn, countEq, List.filter_cons, h1, h2, h3, h4,
                hit_events] at ih ⊢
              omega


/-- Claim C3: for every historical dataset and batter with zero qualifying
at-bats, the division in the aggregate computation is guarded and the
average, slugging and isolated power of the batter are all exactly 0. -/
theorem claim_C3 (df : List Row) (b : Nat)
    (h : countIn (groupOf df b) ab_events = 0) :
    calculate_batter_stats df b = ⟨0, 0, 0⟩ := by
  unfold calculate_batter_stats get_stats
  simp [h]

def dfC3 : List Row := [⟨100, 200, some ("walk"), 95, 2200, 'R', 'R'⟩]

/-- Witness for C3: a one-row history whose only event is a walk gives the
batter zero at-bats and all-zero aggregates. -/
theorem claim_C3_witness :
    countIn (groupOf dfC3 200) ab_events = 0 ∧
      calculate_batter_stats dfC3 200 = ⟨0, 0, 0⟩ :=
  ⟨by decide, claim_C3 dfC3 200 (by decide)⟩

/-- Claim C4: whenever a batter has at least one at-bat, the isolated power
computed by the aggregate step equals slugging minus average. -/
theorem claim_C4 (df : List Row) (b : Nat)
    (h : 0 < countIn (groupOf df b) ab_events) :
    (calculate_batter_stats df b).iso
      = (calculate_batter_stats df b).slg - (calculate_batter_stats df b).avg := by
  unfold calculate_batter_stats get_stats
  simp [Nat.pos_iff_ne_zero.mp h]

def histC6 : List Row :=
  [⟨100, 200, some ("single"), 95, 2200, 'R', 'R'⟩,
   ⟨100, 200, some ("strikeout"), 97, 2300, 'R', 'R'⟩,
   ⟨100, 200, some ("walk"), 93, 2100, 'R', 'R'⟩]

/-- Witness for C4: on the synthetic single-plus-strikeout history the batter
has positive at-bats and iso = slg - avg. -/
theorem claim_C4_witness :
    0 < countIn (groupOf histC6 200) ab_events ∧
      (calculate_batter_stats histC6 200).iso
        = (calculate_batter_stats histC6 200).slg
          - (calculate_batter_stats histC6 200).avg :=
  ⟨by decide, claim_C4 histC6 200 (by decide)⟩

/-- Claim C5: for every historical dataset and batter, the computed batting
average never exceeds the computed slugging percentage. -/
theorem claim_C5 (df : List Row) (b : Nat) :
    (calculate_batter_stats df b).avg ≤ (calculate_batter_stats df b).slg := by
  unfold calculate_batter_stats get_stats
  by_cases hab : countIn (groupOf df b) ab_events = 0
  · simp [hab]
  · simp only [hab, if_false]
    have hle := hits_le_tb (groupOf df b)
    have hpos : (0 : ℚ) < (countIn (groupOf df b) ab_events : ℚ) := by
      exact_mod_cast Nat.pos_of_ne_zero hab
    refine div_le_div_of_nonneg_right ?_ (le_of_lt hpos)
    exact_mod_cast hle

/-- Claim C6: the aggregate step counts hits, at-bats and weighted total
bases as specified; on the synthetic three-row history (one single, one
strikeout, one walk for batter 200) it yields 1 hit, 2 at-bats, 1 total
base, hence average 0.5, slugging 0.5 and isolated power 0. -/
theorem claim_C6 :
    countIn (groupOf histC6 200) hit_events = 1 ∧
    countIn (groupOf histC6 200) ab_events = 2 ∧
    countEq (groupOf histC6 200) "single" + 2 * countEq (groupOf histC6 200) "double"
      + 3 * countEq (groupOf histC6 200) "triple"
      + 4 * countEq (groupOf histC6 200) "home_run" = 1 ∧
    calculate_batter_stats histC6 200 = ⟨1/2, 1/2, 0⟩ := by
  refine ⟨by decide, by decide, by decide, ?_⟩
  simp [calculate_batter_stats, groupOf, histC6, get_stats, countIn, countEq,
    hit_events, ab_events, List.filter]

def demoEnv : Env := ⟨true, true, true, true, [], [], fun _ _ => Except.error ()⟩

def nA : List Char := ['A']
def nB : List Char := ['B']
def nC : List Char := ['C']
def nD : List Char := ['D']

/-- The classifier stand-in producing probabilities 0.3, 0.7, 0.7, 0.1 for
the four feature rows, in input order. -/
def demoPredict : List (List ℚ) → List ℚ := fun _ => [3/10, 7/10, 7/10, 1/10]

/-- Claim C2: the optimizer sorts predictions in descending order of
probability with a stable sort (filtering the output by any fixed
probability value returns exactly the entries of the input with that value, in
input order); on batters A, B, C, D with probabilities 0.3, 0.7, 0.7, 0.1
the output order is exactly B, C, A, D. -/
theorem claim_C2 :
    (∀ l : List Pred,
      (sortDesc l).Pairwise (fun a b => b.prob ≤ a.prob)
      ∧ ∀ p : ℚ, (sortDesc l).filter (fun y => decide (y.prob = p))
          = l.filter (fun y => decide (y.prob = p)))
    ∧ optimize_lineup demoEnv id demoPredict ['P'] [nA, nB, nC, nD]
        = Except.ok [⟨nB, 7/10⟩, ⟨nC, 7/10⟩, ⟨nA, 3/10⟩, ⟨nD, 1/10⟩] := by
  refine ⟨fun l => ⟨sortDesc_pairwise l, fun p => sortDesc_filter l p⟩, ?_⟩
  simp [optimize_lineup, get_pitcher_profile, get_batter_profile, get_player_id,
    demoEnv, demoPredict, nA, nB, nC, nD, pyStrip, pySplitSpace, isWS,
    featureRow, sortDesc, insertDesc, league_average, mean, defaultBatter]
  norm_num [sortDesc, insertDesc]

/-- Claim C7: if the trained model artifact or the scaler artifact is
absent, the optimizer returns the descriptive error string and never invokes
the classifier (the result is this error for every possible scaler and
predict function). -/
theorem claim_C7 (env : Env)
    (scalerTransform : List (List ℚ) → List (List ℚ))
    (modelPredict : List (List ℚ) → List ℚ)
    (pitcher_name : List Char) (batter_names : List (List Char))
    (h : env.modelExists = false ∨ env.scalerExists = false) :
    optimize_lineup env scalerTransform modelPredict pitcher_name batter_names
      = Except.error ("Model or Scaler not found. Please train the model first.") := by
  unfold optimize_lineup
  rcases h with h | h <;> simp [h]

def envNoModel : Env := ⟨true, true, false, true, [], [], fun _ _ => Except.error ()⟩

/-- Witness for C7: with the model artifact missing, a concrete optimize call
returns the model-not-found error. -/
theorem claim_C7_witness :
    envNoModel.modelExists = false ∧
      optimize_lineup envNoModel id demoPredict ['P'] [nA]
        = Except.error ("Model or Scaler not found. Please train the model first.") :=
  ⟨rfl, claim_C7 envNoModel id demoPredict ['P'] [nA] (Or.inl rfl)⟩

/-- With the cache file present, the pitcher profile lookup always succeeds
(per-pitcher means or the league-average fallback). -/
lemma get_pitcher_profile_isSome (env : Env) (name : List Char)
    (hc : env.cacheExists = true) :
    ∃ p, get_pitcher_profile env name = some p := by
  unfold get_pitcher_profile
  rw [hc]
  simp only [Bool.not_true, Bool.false_eq_true, if_false]
  cases get_player_id env.lookup name with
  | none => exact ⟨_, rfl⟩
  | some pid =>
    dsimp only
    by_cases h0 : pid ≠ 0
    · rw [if_pos h0]
      cases env.cache.filter (fun r => r.pitcher == pid) with
      | nil => exact ⟨_, rfl⟩
      | cons r0 rs => exact ⟨_, rfl⟩
    · rw [if_neg h0]
      exact ⟨_, rfl⟩

/-- Claim C8: when the artifacts and the cached dataset exist and the batter
list yields no feature vectors (every batter profile lookup returns none —
in particular when the batter list is empty), the optimizer returns the
no-valid-batters error, for every possible scaler and predict function (the
classifier is never consulted). -/
theorem claim_C8 (env : Env)
    (scalerTransform : List (List ℚ) → List (List ℚ))
    (modelPredict : List (List ℚ) → List ℚ)
    (pitcher_name : List Char) (batter_names : List (List Char))
    (hm : env.modelExists = true) (hs : env.scalerExists = true)
    (hc : env.cacheExists = true)
    (hnone : ∀ b ∈ batter_names, get_batter_profile env b = none) :
    optimize_lineup env scalerTransform modelPredict pitcher_name batter_names
      = Except.error ("No valid batters found.") := by
  obtain ⟨p, hp⟩ := get_pitcher_profile_isSome env pitcher_name hc
  unfold optimize_lineup
  rw [hm, hs]
  simp only [Bool.not_true, Bool.or_self, Bool.false_eq_true, if_false]
  rw [hp]
  dsimp only
  have hrows : (batter_names.filterMap fun b =>
      (get_batter_profile env b).map fun bs => (b, featureRow p bs)) = [] := by
    rw [List.filterMap_eq_nil_iff]
    intro b hb
    rw [hnone b hb]
    rfl
  rw [hrows]
  rfl

def envNoStats : Env := ⟨true, false, true, true, [], [], fun _ _ => Except.error ()⟩

/-- Witness for C8: with the cached dataset present but the batter-stats file
missing, a non-empty batter list yields no feature vectors and the
no-valid-batters error; the empty batter list gives the same error. -/
theorem claim_C8_witness :
    (∀ b ∈ [nA, nB], get_batter_profile envNoStats b = none) ∧
      optimize_lineup envNoStats id demoPredict ['P'] [nA, nB]
        = Except.error ("No valid batters found.") ∧
      optimize_lineup demoEnv id demoPredict ['P'] []
        = Except.error ("No valid batters found.") :=
  ⟨by decide,
   claim_C8 envNoStats id demoPredict ['P'] [nA, nB] rfl rfl rfl (by decide),
   claim_C8 demoEnv id demoPredict ['P'] [] rfl rfl rfl
     (fun b hb => absurd hb (List.not_mem_nil b))⟩

/-- Claim C9: with the cached dataset present, a pitcher whose name does not
resolve, or who resolves but has no cached rows, receives the league-average
fallback: full-dataset mean velocity and spin rate, handedness 0. -/
theorem claim_C9 (env : Env) (name : List Char)
    (hc : env.cacheExists = true)
    (h : get_player_id env.lookup name = none ∨
      ∃ pid, get_player_id env.lookup name = some pid ∧
        env.cache.filter (fun r => r.pitcher == pid) = []) :
    get_pitcher_profile env name = some (league_average env.cache) := by
  unfold get_pitcher_profile
  rw [hc]
  simp only [Bool.not_true, Bool.false_eq_true, if_false]
  rcases h with h | ⟨pid, hpid, hfil⟩
  · rw [h]
  · rw [hpid]
    dsimp only
    by_cases h0 : pid ≠ 0
    · rw [if_pos h0, hfil]
    · rw [if_neg h0]

def envC9 : Env :=
  ⟨true, true, true, true, [⟨100, 200, some ("single"), 95, 2200, 'R', 'R'⟩], [],
    fun _ _ => Except.error ()⟩

/-- Witness for C9: an unresolvable pitcher name on a one-row cache receives
exactly the full-dataset means with handedness 0. -/
theorem claim_C9_witness :
    envC9.cacheExists = true ∧
      get_player_id envC9.lookup ['Z'] = none ∧
      get_pitcher_profile envC9 ['Z'] = some (league_average envC9.cache) :=
  ⟨rfl, by decide, claim_C9 envC9 ['Z'] rfl (Or.inl (by decide))⟩

/-- Exclusion in the optimizer: every prediction it returns belongs to a
batter whose profile lookup produced some profile, so a batter whose lookup
returned `none` contributes no prediction. -/
lemma optimize_ok_profiles (env : Env)
    (scalerTransform : List (List ℚ) → List (List ℚ))
    (modelPredict : List (List ℚ) → List ℚ)
    (pitcher_name : List Char) (batter_names : List (List Char))
    (res : List Pred)
    (hok : optimize_lineup env scalerTransform modelPredict pitcher_name
      batter_names = Except.ok res) :
    ∀ pr ∈ res, ∃ bp, get_batter_profile env pr.batter = some bp := by
  unfold optimize_lineup at hok
  by_cases hml : (!env.modelExists || !env.scalerExists) = true
  · rw [if_pos hml] at hok
    exact Except.noConfusion hok
  · rw [if_neg hml] at hok
    cases hpp : get_pitcher_profile env pitcher_name with
    | none =>
      rw [hpp] at hok
      exact Except.noConfusion hok
    | some ps =>
      rw [hpp] at hok
      dsimp only at hok
      by_cases he : (List.map Prod.snd (batter_names.filterMap fun b =>
          (get_batter_profile env b).map fun bs =>
            (b, featureRow ps bs))).isEmpty = true
      · rw [if_pos he] at hok
        exact Except.noConfusion hok
      · rw [if_neg he] at hok
        simp only [Except.ok.injEq] at hok
        subst hok
        intro pr hpr
        have h1 := mem_sortDesc hpr
        rw [List.mem_map] at h1
        obtain ⟨⟨b, p⟩, hbp, hpr_eq⟩ := h1
        have hbv := (List.of_mem_zip hbp).1
        rw [List.mem_map] at hbv
        obtain ⟨⟨b2, fr⟩, hmem2, hfst⟩ := hbv
        rw [List.mem_filterMap] at hmem2
        obtain ⟨bn, hbn, hf⟩ := hmem2
        cases hgb : get_batter_profile env bn with
        | none =>
          rw [hgb] at hf
          exact Option.noConfusion hf
        | some bs =>
          rw [hgb] at hf
          rw [Option.map_some'] at hf
          simp only [Option.some.injEq, Prod.mk.injEq] at hf
          refine ⟨bs, ?_⟩
          rw [← hpr_eq]
          show get_batter_profile env b = some bs
          rw [← hfst]
          show get_batter_profile env b2 = some bs
          rw [← hf.1]
          exact hgb

def envNoCache : Env := ⟨false, true, true, true, [], [], fun _ _ => Except.error ()⟩

def nameBob : List Char := ['B', 'o', 'b']

/-- Counterexample to claim C1 as stated: when the cached dataset file is
missing, a batter name whose identity resolution yields no identifier gets
`none` from `get_batter_profile`, not the static default profile, so batter
profile lookup does not always produce some profile. -/
theorem claim_C1_counterexample :
    get_player_id envNoCache.lookup nameBob = none ∧
      get_batter_profile envNoCache nameBob = none ∧
      get_batter_profile envNoCache nameBob ≠ some defaultBatter := by
  refine ⟨by decide, rfl, ?_⟩
  intro h
  exact Option.noConfusion h

/-- Claim C1 (amended): provided the cached dataset file and the batter-stats
file both exist, a batter name whose identity resolution yields no
identifier — or whose stats lookup otherwise fails: a falsy resolved id, or
a resolved id with no row in the batter-stats file — receives exactly the
static default profile (stand 0, avg 0.240, slg 0.400, iso 0.160), and
batter profile lookup always produces some profile; when either file is
missing, the lookup returns none instead, and such a batter is excluded:
every prediction the optimizer returns belongs to a batter whose profile
lookup produced some profile. -/
theorem claim_C1 (env : Env) (name : List Char) :
    (env.cacheExists = true → env.batterStatsExists = true →
      ((get_player_id env.lookup name = none →
         get_batter_profile env name = some defaultBatter)
       ∧ (∀ pid, get_player_id env.lookup name = some pid →
           pid = 0 ∨ env.batterStats.filter (fun p => p.1 == pid) = [] →
           get_batter_profile env name = some defaultBatter)
       ∧ ∃ p, get_batter_profile env name = some p))
    ∧ ((env.cacheExists = false ∨ env.batterStatsExists = false) →
        get_batter_profile env name = none)
    ∧ (∀ scalerTransform modelPredict pitcher_name batter_names res,
        optimize_lineup env scalerTransform modelPredict pitcher_name
          batter_names = Except.ok res →
        ∀ pr ∈ res, ∃ bp, get_batter_profile env pr.batter = some bp) := by
  refine ⟨fun hc hb => ⟨?_, ?_, ?_⟩, ?_, ?_⟩
  · intro h
    unfold get_batter_profile
    rw [hc, hb, h]
    rfl
  · intro pid hpid hcase
    unfold get_batter_profile
    rw [hc, hb, hpid]
    simp only [Bool.not_true, Bool.or_self, Bool.false_eq_true, if_false]
    rcases hcase with rfl | hfil
    · rw [if_neg (fun h => h rfl)]
    · by_cases h0 : pid ≠ 0
      · rw [if_pos h0, hfil]
      · rw [if_neg h0]
  · unfold get_batter_profile
    rw [hc, hb]
    simp only [Bool.not_true, Bool.or_self, Bool.false_eq_true, if_false]
    cases get_player_id env.lookup name with
    | none => exact ⟨_, rfl⟩
    | some pid =>
      dsimp only
      by_cases h0 : pid ≠ 0
      · rw [if_pos h0]
        cases env.batterStats.filter (fun p => p.1 == pid) with
        | nil => exact ⟨_, rfl⟩
        | cons s ss => exact ⟨_, rfl⟩
      · rw [if_neg h0]
        exact ⟨_, rfl⟩
  · intro h
    rcases h with h | h <;> simp [get_batter_profile, h]
  · exact fun st mp pn bns res hok =>
      optimize_ok_profiles env st mp pn bns res hok

def envResolved : Env := ⟨true, true, true, true, [], [], fun _ _ => Except.ok [7]⟩

def nameTwo : List Char := ['J', ' ', 'S']

/-- Witness for amended C1: with both files present, the unresolvable name
Bob gets the static default; a two-token name whose id resolves to 7 but has
no row in the empty batter-stats file also gets the static default; with the
cache file missing, the lookup returns none. -/
theorem claim_C1_witness :
    get_batter_profile demoEnv nameBob = some defaultBatter ∧
      get_player_id envResolved.lookup nameTwo = some 7 ∧
      get_batter_profile envResolved nameTwo = some defaultBatter ∧
      get_batter_profile envNoCache nameBob = none :=
  ⟨((claim_C1 demoEnv nameBob).1 rfl rfl).1 (by decide),
   by decide,
   ((claim_C1 envResolved nameTwo).1 rfl rfl).2.1 7 (by decide) (Or.inr rfl),
   (claim_C1 envNoCache nameBob).2.1 (Or.inl rfl)⟩

/-- If the stripped name contains no space character, the split-on-space
step returns the single stripped part. -/
lemma pySplitSpace_no_space (l : List Char) (h : ∀ c ∈ l, c ≠ ' ') :
    pySplitSpace l = [l] := by
  induction l with
  | nil => rfl
  | cons c rest ih =>
    rw [pySplitSpace, ih fun x hx => h x (List.mem_cons_of_mem _ hx)]
    dsimp only
    rw [if_neg (h c (List.mem_cons_self _ _))]

/-- Claim C10: `get_player_id` returns `none` for every name with fewer than
two whitespace-separated tokens — rendered as: the stripped name contains no
whitespace character, which holds exactly when the name has at most one
token — for every possible provider, i.e. without consulting it; and when
the provider raises on every query, the exception is absorbed into `none`. -/
theorem claim_C10 (lookup : List Char → List Char → Except Unit (List Nat))
    (name : List Char) :
    ((∀ c ∈ pyStrip name, isWS c = false) → get_player_id lookup name = none)
    ∧ ((∀ l f, lookup l f = Except.error ()) → get_player_id lookup name = none) := by
  constructor
  · intro h
    have hnos : ∀ c ∈ pyStrip name, c ≠ ' ' := by
      intro c hc heq
      have := h c hc
      rw [heq] at this
      simp [isWS] at this
    unfold get_player_id
    rw [pySplitSpace_no_space _ hnos]
  · intro h
    unfold get_player_id
    cases pySplitSpace (pyStrip name) with
    | nil => rfl
    | cons p1 rest =>
      cases rest with
      | nil => rfl
      | cons p2 ps =>
        dsimp only
        rw [h]

/-- Witness for C10: the single-token name Bob yields `none` under a
provider that always raises (both conjuncts discharged concretely). -/
theorem claim_C10_witness :
    get_player_id (fun _ _ => Except.error ()) nameBob = none ∧
      get_player_id (fun _ _ => Except.error ()) nameBob = none :=
  ⟨(claim_C10 (fun _ _ => Except.error ()) nameBob).1 (by decide),
   (claim_C10 (fun _ _ => Except.error ()) nameBob).2 (fun _ _ => rfl)⟩

end BaseballAI
